import Mathlib

/-!
Verification of the streaming read-buffer subsystem of a portable WAV
player (`ReadBuffer.cpp`).  The consumer-side `ReadBuffer` object is
modelled as a record of its fields; the byte region `_head[0.._size)` is a
function `Nat → Nat`, the cursor `_ptr` is its offset from `_head`, and the
secondary-buffer queue is a FIFO list of items.  `fill`, `shift`, `bind`,
`tell` and `seek` are translated statement by statement from the source;
the producer-side fill loop is modelled as a small-step transition system.

Buffer/threshold/chunk sizes are compile-time constants declared in a
header that is not part of the sources at hand, so they are kept as
ordinary fields / parameters; every result is proved for all values.
-/

namespace ReadBuffer

/-- One secondary-buffer item, as carried by `secondaryBufferQueue`:
`ptr` (the chunk's bytes, modelled as a function), `length` of valid
bytes, absolute file position `pos` after the chunk, and the chunk's
EOF flag `reachedEof`. -/
structure Item where
  data : Nat → Nat
  length : Nat
  pos : Nat
  reachedEof : Bool

/-- The consumer-side `ReadBuffer` state: buffer contents `data`
(byte at `_head + i` is `data i`), buffer capacity `size` (`_size`),
cursor offset `ptrOff` (`_ptr - _head`), unread byte count `left`
(`_left`), auto-fill threshold `fillThreshold` (`_fillThreshold`),
absolute file position `pos` (`_pos`), EOF flag `isEof` (`_isEof`),
and the bound file handle `fp` (an opaque identifier). -/
structure RBState where
  data : Nat → Nat
  size : Nat
  ptrOff : Nat
  left : Nat
  fillThreshold : Nat
  pos : Nat
  isEof : Bool
  fp : Nat

/-- `ReadBuffer::bind(FIL* fp)`: `_fp = fp; _ptr = _head; _left = 0;
_isEof = false;` — nothing else is touched. -/
def bind (s : RBState) (fp : Nat) : RBState :=
  { s with fp := fp, ptrOff := 0, left := 0, isEof := false }

/-- `ReadBuffer::tell()`: `return _pos - _left;`. -/
def tell (s : RBState) : Nat :=
  s.pos - s.left

/-- `ReadBuffer::getLeft()`: `return _left;`. -/
def getLeft (s : RBState) : Nat :=
  s.left

/-- `ReadBuffer::fill()`, acting on the state together with the
secondary-buffer queue (FIFO list); returns the new state, the new
queue and the `bool` result.

Source, line by line: fail on `_isEof`; fail (after logging) on an
empty queue; otherwise dequeue one item, `memmove(_head, _ptr, _left)`,
`_ptr = _head`, `space = _size - _left`, `memcpy(_head + _left,
item.ptr, item.length)`, `_pos = item.pos`, `_left += item.length`,
`_isEof = item.reachedEof`, and `memset(_head + _left, 0,
space - item.length)` when `space > item.length`. -/
def fill (s : RBState) (q : List Item) : RBState × List Item × Bool :=
  match s.isEof, q with
  | true, _ => (s, q, false)
  | false, [] => (s, q, false)
  | false, item :: rest =>
    -- memmove(_head, _ptr, _left); _ptr = _head;
    let d1 : Nat → Nat := fun i => if i < s.left then s.data (s.ptrOff + i) else s.data i
    let space := s.size - s.left
    -- memcpy(_head + _left, item.ptr, item.length);
    let d2 : Nat → Nat := fun i =>
      if s.left ≤ i ∧ i < s.left + item.length then item.data (i - s.left) else d1 i
    let newLeft := s.left + item.length
    -- if (space > item.length) memset(_head + _left, 0, space - item.length);
    let d3 : Nat → Nat :=
      if item.length < space then
        fun i => if newLeft ≤ i ∧ i < newLeft + (space - item.length) then 0 else d2 i
      else d2
    ({ s with data := d3, ptrOff := 0, left := newLeft,
              pos := item.pos, isEof := item.reachedEof }, rest, true)

/-- `ReadBuffer::shift(size_t bytes)`: fail if `_left < bytes`; else
`_ptr += bytes; _left -= bytes;` and `fill()` when
`_left < _fillThreshold` (its result discarded); return `true`.
The last component records whether `fill()` was invoked. -/
def shift (s : RBState) (q : List Item) (n : Nat) :
    RBState × List Item × Bool × Bool :=
  if s.left < n then (s, q, false, false)
  else
    let s1 := { s with ptrOff := s.ptrOff + n, left := s.left - n }
    if s1.left < s.fillThreshold then
      let r := fill s1 q
      (r.1, r.2.1, true, true)
    else (s1, q, true, false)

/-- `ReadBuffer::shiftAll()`: `return shift(_left);`. -/
def shiftAll (s : RBState) (q : List Item) : RBState × List Item × Bool × Bool :=
  shift s q s.left

/-- A consumer-side call: a manual `fill()` or a `shift(n)`. -/
inductive Op where
  | fillOp : Op
  | shiftOp (n : Nat) : Op

/-- Run a sequence of consumer calls against a state and a queue
(return values are discarded, as a caller is free to do). -/
def runOps (s : RBState) (q : List Item) : List Op → RBState × List Item
  | [] => (s, q)
  | Op.fillOp :: ops =>
    let r := fill s q
    runOps r.1 r.2.1 ops
  | Op.shiftOp n :: ops =>
    let r := shift s q n
    runOps r.1 r.2.1 ops

/-- `true` when the call at the head of the op list, in the given
state, does not dequeue a chunk longer than the free space
`size - left` of the buffer at the moment `fill()` copies it in. -/
def fillFits (s : RBState) (q : List Item) : Bool :=
  match s.isEof, q with
  | true, _ => true
  | false, [] => true
  | false, item :: _ => s.left + item.length ≤ s.size

/-- Every `fill()` performed during the run (manual, or triggered from
inside `shift`) copies its chunk into sufficient free space. -/
def fitsAll (s : RBState) (q : List Item) : List Op → Bool
  | [] => true
  | Op.fillOp :: ops =>
    fillFits s q &&
      (let r := fill s q
       fitsAll r.1 r.2.1 ops)
  | Op.shiftOp n :: ops =>
    (if s.left < n then true
     else
       let s1 := { s with ptrOff := s.ptrOff + n, left := s.left - n }
       if s1.left < s.fillThreshold then fillFits s1 q else true) &&
      (let r := shift s q n
       fitsAll r.1 r.2.1 ops)

/-- A freshly bound buffer: result of `bind` on a new `ReadBuffer`
(contents zeroed by `calloc`), for a given capacity and threshold. -/
def freshBound (size threshold fp : Nat) : RBState :=
  bind { data := fun _ => 0, size := size, ptrOff := 0, left := 0,
         fillThreshold := threshold, pos := 0, isEof := false, fp := 0 } fp

/-- `FRESULT` of the file-system layer, as far as this subsystem looks
at it: `FR_OK` or some error. -/
inductive FRESULT where
  | ok : FRESULT
  | err (code : Nat) : FRESULT
deriving DecidableEq

/-- Consumer side of `ReadBuffer::reqBind(fp, flag)` after the response
arrived: for `flag = true` it spins until the secondary queue is full
and then calls `fill()`; for `flag = false` it just returns.  The queue
passed in is the queue as observed at that point. -/
def reqBindConsumerTail (s : RBState) (q : List Item) (flag : Bool) :
    RBState × List Item :=
  if flag then
    let r := fill s q
    (r.1, r.2.1)
  else (s, q)

/-- `ReadBuffer::seek(size_t fpos)` as observed by the caller:
disconnect (`reqBind(_fp, false)` — the producer drains the queue and
acknowledges), `f_lseek(_fp, fpos)` whose `FRESULT` is ignored,
reconnect (`reqBind(_fp)` — the producer runs `bind(fp)`, refills the
pool to `qAfterReconnect`, and the consumer seeds with one `fill()`),
and `return true`.  `lseekResult` is the ignored `FRESULT`. -/
def seek (s : RBState) (qAfterReconnect : List Item) (lseekResult : FRESULT)
    (fpos : Nat) : RBState × List Item × Bool :=
  let _ := lseekResult
  let _ := fpos
  let s1 := bind s s.fp
  let r := reqBindConsumerTail s1 qAfterReconnect true
  (r.1, r.2, true)

end ReadBuffer

namespace FillLoop

open ReadBuffer

/-- Phase of the producer state machine `ReadBuffer::fillLoop()`:
`idle` is the top of the outer `while (true)` loop (awaiting a bind
request), `streaming` is the inner `while (!reachedEof)` loop, and
`fatal` is the `return` taken when `f_read` fails or reads zero
bytes — the loop function has exited and never runs again. -/
inductive Phase where
  | idle
  | streaming
  | fatal
deriving DecidableEq

/-- Producer-side state: the phase, the number of items currently in
`secondaryBufferQueue` (`level`), the loop locals `pos`, `id` and
`reachedEof`, plus two ghost histories: every item ever published on
the queue (`published`) and the number of bind requests acknowledged
(`serviced`). -/
structure FLState where
  phase : Phase
  level : Nat
  pos : Nat
  id : Nat
  eof : Bool
  published : List Item
  serviced : Nat

/-- One step of the fill-loop system, for pool capacity `N`
(`NUM_SECONDARY_BUFFERS`) and chunk capacity `C`
(`SECONDARY_BUFFER_SIZE`).  Producer steps follow `fillLoop()`;
`consume` is the consumer dequeuing one item (inside its `fill()`).

* `readOk`: in the inner read loop (streaming, not yet EOF, queue not
  full), `f_read` returns `FR_OK` with `0 < br ≤ C`: the item is
  published, `pos += br`, `id = (id+1) % N`, `reachedEof` is re-read
  from the file (environment choice `eofNow`).
* `readBad`: same loop position, `f_read` returns an error or
  `br == 0`: `return;` — nothing is published, the loop is dead.
* `disconnect`: after the read loop (queue full or EOF), a pending
  `reqBind(false)` is taken: the queue is drained, the request is
  acknowledged, and the loop breaks back to the top (idle).
* `connectIgnored`: a pending `reqBind(true)` while streaming is
  acknowledged but otherwise ignored; streaming continues.
* `idleConnect`: at the top of the loop a `reqBind(true)` arrives:
  `bind(fp)` runs on the consumer object, `pos = f_tell(fp)`,
  `reachedEof = f_eof(fp)` (environment choices), acknowledge, enter
  streaming.
* `idleDisconnect`: at the top of the loop a `reqBind(false)` arrives:
  acknowledge and `continue` — nothing else happens.
* `consume`: the consumer removes one item from a non-empty queue. -/
inductive Step (N C : Nat) : FLState → FLState → Prop
  | readOk (s : FLState) (br : Nat) (chunk : Nat → Nat) (eofNow : Bool) :
      s.phase = Phase.streaming → s.eof = false → s.level < N →
      0 < br → br ≤ C →
      Step N C s { s with
        level := s.level + 1,
        pos := s.pos + br,
        id := (s.id + 1) % N,
        eof := eofNow,
        published := s.published ++
          [{ data := chunk, length := br, pos := s.pos + br, reachedEof := eofNow }] }
  | readBad (s : FLState) :
      s.phase = Phase.streaming → s.eof = false → s.level < N →
      Step N C s { s with phase := Phase.fatal }
  | disconnect (s : FLState) :
      s.phase = Phase.streaming → (s.level = N ∨ s.eof = true) →
      Step N C s { s with phase := Phase.idle, level := 0,
                          serviced := s.serviced + 1 }
  | connectIgnored (s : FLState) :
      s.phase = Phase.streaming → (s.level = N ∨ s.eof = true) →
      Step N C s { s with serviced := s.serviced + 1 }
  | idleConnect (s : FLState) (ftell : Nat) (feof : Bool) :
      s.phase = Phase.idle →
      Step N C s { s with phase := Phase.streaming, pos := ftell,
                          eof := feof, serviced := s.serviced + 1 }
  | idleDisconnect (s : FLState) :
      s.phase = Phase.idle →
      Step N C s { s with serviced := s.serviced + 1 }
  | eofExit (s : FLState) :
      s.phase = Phase.streaming → s.eof = true →
      Step N C s { s with phase := Phase.idle }
  | consume (s : FLState) :
      0 < s.level →
      Step N C s { s with level := s.level - 1 }

/-- Zero or more steps. -/
def Steps (N C : Nat) : FLState → FLState → Prop :=
  Relation.ReflTransGen (Step N C)

/-- The request-handling block at the top of `fillLoop()`'s outer loop
(a request `req` has been dequeued): if `req.flag`, record the handle,
run `bind(fp)` on the consumer object, reload `pos = f_tell(fp)` and
`reachedEof = f_eof(fp)`; in both cases push the request back as the
response; enter streaming only if `req.flag`.  Returns the consumer
object, the loop locals `(pos, reachedEof)`, the response, and whether
the streaming loop is entered. -/
def handleIdleReq (rb : RBState) (pos : Nat) (reachedEof : Bool)
    (reqFp : Nat) (reqFlag : Bool) (ftell : Nat) (feof : Bool) :
    RBState × (Nat × Bool) × (Nat × Bool) × Bool :=
  if reqFlag then
    (ReadBuffer.bind rb reqFp, (ftell, feof), (reqFp, reqFlag), true)
  else
    (rb, (pos, reachedEof), (reqFp, reqFlag), false)

end FillLoop

namespace ReadBuffer

/-- `fill()` with the EOF flag set fails and changes nothing. -/
lemma fill_of_eof (s : RBState) (q : List Item) (h : s.isEof = true) :
    fill s q = (s, q, false) := by
  rcases s with ⟨d, sz, po, l, th, pos, e, fp⟩
  dsimp only at h
  subst h
  cases q <;> rfl

/-- `fill()` with an empty secondary queue fails and changes nothing. -/
lemma fill_of_empty (s : RBState) : fill s [] = (s, [], false) := by
  rcases s with ⟨d, sz, po, l, th, pos, e, fp⟩
  cases e <;> rfl

/-- A successful or failed `shift` never clears the EOF flag, and with
the flag set its auto-fill dequeues nothing. -/
lemma shift_preserves_eof (s : RBState) (q : List Item) (n : Nat)
    (h : s.isEof = true) :
    (shift s q n).1.isEof = true ∧ (shift s q n).2.1 = q := by
  unfold shift
  dsimp only
  split_ifs with h1 h2
  · exact ⟨h, rfl⟩
  · rw [fill_of_eof { s with ptrOff := s.ptrOff + n, left := s.left - n } q h]
    exact ⟨h, rfl⟩
  · exact ⟨h, rfl⟩

/-- The EOF flag survives any sequence of consumer calls (only `bind`
clears it). -/
lemma runOps_preserves_eof (ops : List Op) : ∀ (s : RBState) (q : List Item),
    s.isEof = true → (runOps s q ops).1.isEof = true := by
  induction ops with
  | nil => intro s q h; exact h
  | cons op ops ih =>
    intro s q h
    cases op with
    | fillOp =>
      simp only [runOps]
      rw [fill_of_eof s q h]
      exact ih s q h
    | shiftOp n =>
      simp only [runOps]
      have h2 := shift_preserves_eof s q n h
      exact ih _ _ h2.1

/-- C1.  When `fill()` succeeds (EOF not flagged, queue non-empty) and
the dequeued chunk fits into the free space (so the `memcpy` stays
inside the buffer), `fill()` dequeues exactly one item and afterwards:
the cursor is back at the buffer base, the old unread tail sits at the
base, the chunk's bytes follow it, the trailing space up to `size` is
zero, `left` grew by the chunk's length, `pos` and the EOF flag are the
chunk's, and `fill()` returned `true`. -/
theorem fill_success_spec (s : RBState) (item : Item) (rest : List Item)
    (heof : s.isEof = false)
    (hfit : s.left + item.length ≤ s.size) :
    (fill s (item :: rest)).2.1 = rest ∧
    (fill s (item :: rest)).2.2 = true ∧
    (fill s (item :: rest)).1.ptrOff = 0 ∧
    (fill s (item :: rest)).1.left = s.left + item.length ∧
    (fill s (item :: rest)).1.pos = item.pos ∧
    (fill s (item :: rest)).1.isEof = item.reachedEof ∧
    (∀ i, i < s.left →
      (fill s (item :: rest)).1.data i = s.data (s.ptrOff + i)) ∧
    (∀ i, i < item.length →
      (fill s (item :: rest)).1.data (s.left + i) = item.data i) ∧
    (∀ i, s.left + item.length ≤ i → i < s.size →
      (fill s (item :: rest)).1.data i = 0) := by
  rcases s with ⟨d, sz, po, l, th, pos, e, fp⟩
  dsimp only at heof hfit ⊢
  subst heof
  have hfill : fill ⟨d, sz, po, l, th, pos, false, fp⟩ (item :: rest) =
      ({ data :=
           if item.length < sz - l then
             (fun i => if l + item.length ≤ i ∧
                 i < l + item.length + (sz - l - item.length) then 0
               else if l ≤ i ∧ i < l + item.length then item.data (i - l)
               else if i < l then d (po + i) else d i)
           else
             (fun i => if l ≤ i ∧ i < l + item.length then item.data (i - l)
               else if i < l then d (po + i) else d i),
         size := sz, ptrOff := 0, left := l + item.length,
         fillThreshold := th, pos := item.pos, isEof := item.reachedEof,
         fp := fp }, rest, true) := rfl
  rw [hfill]
  dsimp only
  refine ⟨rfl, rfl, rfl, rfl, rfl, rfl, ?_, ?_, ?_⟩
  · intro i hi
    by_cases h : item.length < sz - l
    · rw [if_pos h]
      rw [if_neg (by omega), if_neg (by omega), if_pos hi]
    · rw [if_neg h]
      rw [if_neg (by omega), if_pos hi]
  · intro i hi
    by_cases h : item.length < sz - l
    · rw [if_pos h]
      rw [if_neg (by omega), if_pos (by omega : l ≤ l + i ∧ l + i < l + item.length)]
      congr 1
      omega
    · rw [if_neg h]
      rw [if_pos (by omega : l ≤ l + i ∧ l + i < l + item.length)]
      congr 1
      omega
  · intro i hlow hhigh
    by_cases h : item.length < sz - l
    · rw [if_pos h]
      rw [if_pos (by omega)]
    · omega

/-- C1 witness: a concrete successful fill (size 4, tail `[7]` at
offset 1, chunk `[8, 9]`). -/
theorem fill_success_spec_witness :
    (fill { data := fun i => if i = 1 then 7 else 5, size := 4, ptrOff := 1,
            left := 1, fillThreshold := 0, pos := 10, isEof := false, fp := 0 }
          [{ data := fun i => 8 + i, length := 2, pos := 12,
             reachedEof := false }]).2.1 = [] ∧
    (fill { data := fun i => if i = 1 then 7 else 5, size := 4, ptrOff := 1,
            left := 1, fillThreshold := 0, pos := 10, isEof := false, fp := 0 }
          [{ data := fun i => 8 + i, length := 2, pos := 12,
             reachedEof := false }]).2.2 = true ∧
    (fill { data := fun i => if i = 1 then 7 else 5, size := 4, ptrOff := 1,
            left := 1, fillThreshold := 0, pos := 10, isEof := false, fp := 0 }
          [{ data := fun i => 8 + i, length := 2, pos := 12,
             reachedEof := false }]).1.ptrOff = 0 ∧
    (fill { data := fun i => if i = 1 then 7 else 5, size := 4, ptrOff := 1,
            left := 1, fillThreshold := 0, pos := 10, isEof := false, fp := 0 }
          [{ data := fun i => 8 + i, length := 2, pos := 12,
             reachedEof := false }]).1.left = 1 + 2 ∧
    (fill { data := fun i => if i = 1 then 7 else 5, size := 4, ptrOff := 1,
            left := 1, fillThreshold := 0, pos := 10, isEof := false, fp := 0 }
          [{ data := fun i => 8 + i, length := 2, pos := 12,
             reachedEof := false }]).1.pos = 12 ∧
    (fill { data := fun i => if i = 1 then 7 else 5, size := 4, ptrOff := 1,
            left := 1, fillThreshold := 0, pos := 10, isEof := false, fp := 0 }
          [{ data := fun i => 8 + i, length := 2, pos := 12,
             reachedEof := false }]).1.isEof = false ∧
    (∀ i, i < 1 →
      (fill { data := fun i => if i = 1 then 7 else 5, size := 4, ptrOff := 1,
              left := 1, fillThreshold := 0, pos := 10, isEof := false, fp := 0 }
            [{ data := fun i => 8 + i, length := 2, pos := 12,
               reachedEof := false }]).1.data i =
        (fun i : Nat => if i = 1 then 7 else 5) (1 + i)) ∧
    (∀ i, i < 2 →
      (fill { data := fun i => if i = 1 then 7 else 5, size := 4, ptrOff := 1,
              left := 1, fillThreshold := 0, pos := 10, isEof := false, fp := 0 }
            [{ data := fun i => 8 + i, length := 2, pos := 12,
               reachedEof := false }]).1.data (1 + i) = 8 + i) ∧
    (∀ i, 1 + 2 ≤ i → i < 4 →
      (fill { data := fun i => if i = 1 then 7 else 5, size := 4, ptrOff := 1,
              left := 1, fillThreshold := 0, pos := 10, isEof := false, fp := 0 }
            [{ data := fun i => 8 + i, length := 2, pos := 12,
               reachedEof := false }]).1.data i = 0) :=
  fill_success_spec
    { data := fun i => if i = 1 then 7 else 5, size := 4, ptrOff := 1,
      left := 1, fillThreshold := 0, pos := 10, isEof := false, fp := 0 }
    { data := fun i => 8 + i, length := 2, pos := 12, reachedEof := false }
    [] rfl (by decide)


/-- C4.  If the EOF flag is already set, or the secondary-buffer queue
is empty, `fill()` returns `false` and leaves state and queue
untouched; moreover once EOF is flagged it survives every later
`shift`/`fill`, so every subsequent `fill()` fails the same way. -/
theorem fill_failure_spec (s : RBState) (q : List Item)
    (h : s.isEof = true ∨ q = []) :
    fill s q = (s, q, false) ∧
    (s.isEof = true → ∀ ops : List Op,
      (runOps s q ops).1.isEof = true ∧
      fill (runOps s q ops).1 (runOps s q ops).2 =
        ((runOps s q ops).1, (runOps s q ops).2, false)) := by
  constructor
  · rcases h with h | h
    · exact fill_of_eof s q h
    · rw [h]
      exact fill_of_empty s
  · intro he ops
    have h1 := runOps_preserves_eof ops s q he
    exact ⟨h1, fill_of_eof _ _ h1⟩

/-- C4 witness: an EOF-flagged buffer; `fill()` fails with no state
change, and still fails after a further `shift(0)` and `fill()`. -/
theorem fill_failure_spec_witness :
    (fill { data := fun _ => 0, size := 4, ptrOff := 0, left := 0,
            fillThreshold := 0, pos := 9, isEof := true, fp := 1 } [] =
      ({ data := fun _ => 0, size := 4, ptrOff := 0, left := 0,
         fillThreshold := 0, pos := 9, isEof := true, fp := 1 }, [], false)) ∧
    ((true : Bool) = true → ∀ ops : List Op,
      (runOps { data := fun _ => 0, size := 4, ptrOff := 0, left := 0,
                fillThreshold := 0, pos := 9, isEof := true, fp := 1 } [] ops).1.isEof
        = true ∧
      fill (runOps { data := fun _ => 0, size := 4, ptrOff := 0, left := 0,
                     fillThreshold := 0, pos := 9, isEof := true, fp := 1 } [] ops).1
           (runOps { data := fun _ => 0, size := 4, ptrOff := 0, left := 0,
                     fillThreshold := 0, pos := 9, isEof := true, fp := 1 } [] ops).2 =
        ((runOps { data := fun _ => 0, size := 4, ptrOff := 0, left := 0,
                   fillThreshold := 0, pos := 9, isEof := true, fp := 1 } [] ops).1,
         (runOps { data := fun _ => 0, size := 4, ptrOff := 0, left := 0,
                   fillThreshold := 0, pos := 9, isEof := true, fp := 1 } [] ops).2,
         false)) :=
  fill_failure_spec
    { data := fun _ => 0, size := 4, ptrOff := 0, left := 0,
      fillThreshold := 0, pos := 9, isEof := true, fp := 1 } [] (Or.inl rfl)

/-- C10.  `bind(fp)` resets the cursor to the base, zeroes `left` and
clears the EOF flag, while leaving the buffer bytes, capacity,
threshold and — pointedly — the stored absolute position `_pos`
untouched; hence right after `bind` (before any fill) `tell()` reports
the stale `_pos` of the previous binding. -/
theorem bind_frame_spec (s : RBState) (fp : Nat) :
    (bind s fp).ptrOff = 0 ∧ (bind s fp).left = 0 ∧
    (bind s fp).isEof = false ∧ (bind s fp).pos = s.pos ∧
    (bind s fp).data = s.data ∧ (bind s fp).size = s.size ∧
    (bind s fp).fillThreshold = s.fillThreshold ∧ (bind s fp).fp = fp ∧
    tell (bind s fp) = s.pos :=
  ⟨rfl, rfl, rfl, rfl, rfl, rfl, rfl, rfl, by simp [tell, bind]⟩

/-- C9.  `seek(fpos)` returns `true` whatever the file-system
`f_lseek` answered and whatever the target position was. -/
theorem seek_always_true (s : RBState) (q : List Item) (fr : FRESULT)
    (fpos : Nat) : (seek s q fr fpos).2.2 = true := rfl

/-- A successful `fill()` whose chunk's `pos` is consistent (chunk ends
`item.length` bytes after the previous `_pos`) does not move the
logical position `tell()`. -/
lemma fill_tell (s : RBState) (item : Item) (rest : List Item)
    (heof : s.isEof = false) (hle : s.left ≤ s.pos)
    (hpos : item.pos = s.pos + item.length) :
    tell (fill s (item :: rest)).1 = tell s := by
  rcases s with ⟨d, sz, po, l, th, pos, e, fp⟩
  dsimp only at heof hle hpos
  subst heof
  show item.pos - (l + item.length) = pos - l
  omega

/-- A successful `shift(n)` advances `tell()` by exactly `n`, whether
or not it triggers an auto-fill, as long as any dequeued chunk's `pos`
is consistent with the current `_pos`. -/
lemma shift_tell (s : RBState) (q : List Item) (n : Nat)
    (hle : s.left ≤ s.pos) (hn : n ≤ s.left)
    (hq : ∀ item rest, q = item :: rest → item.pos = s.pos + item.length) :
    tell (shift s q n).1 = tell s + n := by
  unfold shift
  dsimp only
  rw [if_neg (by omega)]
  by_cases h2 : s.left - n < s.fillThreshold
  · rw [if_pos h2]
    dsimp only
    rcases hq' : q with _ | ⟨item, rest⟩
    · rw [fill_of_empty]
      show s.pos - (s.left - n) = s.pos - s.left + n
      omega
    · cases he : s.isEof with
      | true =>
        rw [fill_of_eof { s with
          ptrOff := s.ptrOff + n, left := s.left - n, isEof := true }
          (item :: rest) rfl]
        show s.pos - (s.left - n) = s.pos - s.left + n
        omega
      | false =>
        rw [fill_tell { s with
          ptrOff := s.ptrOff + n, left := s.left - n, isEof := false }
          item rest rfl (by dsimp only; omega)
          (by dsimp only; exact hq item rest hq')]
        show s.pos - (s.left - n) = s.pos - s.left + n
        omega
  · rw [if_neg h2]
    show s.pos - (s.left - n) = s.pos - s.left + n
    omega

/-- C5.  `tell()` is `_pos - _left`: the absolute position of the last
byte loaded minus the bytes still buffered.  It is the logical consumer
position: a consistent `fill()` leaves it unchanged, and a successful
`shift(n)` advances it by exactly `n`. -/
theorem tell_spec (s : RBState) (q : List Item) (n : Nat)
    (hle : s.left ≤ s.pos) :
    tell s = s.pos - s.left ∧
    (s.isEof = false → ∀ item rest, q = item :: rest →
      item.pos = s.pos + item.length → tell (fill s q).1 = tell s) ∧
    (n ≤ s.left →
      (∀ item rest, q = item :: rest → item.pos = s.pos + item.length) →
      tell (shift s q n).1 = tell s + n) := by
  refine ⟨rfl, ?_, ?_⟩
  · intro heof item rest hq hpos
    rw [hq]
    exact fill_tell s item rest heof hle hpos
  · intro hn hq
    exact shift_tell s q n hle hn hq

/-- C5 witness: buffer with 2 unread bytes at `_pos = 10`: `tell()` is
8; a fill of a consistent 3-byte chunk keeps `tell()` at 8, and a
`shift(2)` moves it to 10. -/
theorem tell_spec_witness :
    tell { data := fun _ => 0, size := 8, ptrOff := 0, left := 2,
           fillThreshold := 0, pos := 10, isEof := false, fp := 1 } = 10 - 2 ∧
    ((false : Bool) = false → ∀ item rest,
      ([{ data := fun _ => 1, length := 3, pos := 13, reachedEof := false }] :
        List Item) = item :: rest →
      item.pos = 10 + item.length →
      tell (fill { data := fun _ => 0, size := 8, ptrOff := 0, left := 2,
                   fillThreshold := 0, pos := 10, isEof := false, fp := 1 }
        [{ data := fun _ => 1, length := 3, pos := 13, reachedEof := false }]).1 =
        tell { data := fun _ => 0, size := 8, ptrOff := 0, left := 2,
               fillThreshold := 0, pos := 10, isEof := false, fp := 1 }) ∧
    (2 ≤ 2 →
      (∀ item rest,
        ([{ data := fun _ => 1, length := 3, pos := 13, reachedEof := false }] :
          List Item) = item :: rest →
        item.pos = 10 + item.length) →
      tell (shift { data := fun _ => 0, size := 8, ptrOff := 0, left := 2,
                    fillThreshold := 0, pos := 10, isEof := false, fp := 1 }
        [{ data := fun _ => 1, length := 3, pos := 13, reachedEof := false }] 2).1 =
        tell { data := fun _ => 0, size := 8, ptrOff := 0, left := 2,
               fillThreshold := 0, pos := 10, isEof := false, fp := 1 } + 2) :=
  tell_spec
    { data := fun _ => 0, size := 8, ptrOff := 0, left := 2,
      fillThreshold := 0, pos := 10, isEof := false, fp := 1 }
    [{ data := fun _ => 1, length := 3, pos := 13, reachedEof := false }] 2
    (by decide)

/-- C2 (amended).  `shift(n)` fails with no state change when
`n > left`; otherwise it returns `true`, advances the cursor by `n`,
decrements `left` by `n`, and invokes `fill()` exactly when the
resulting `left` is below the threshold.  A threshold of `0` never
triggers auto-fill.  A threshold equal to the buffer size triggers a
fill on every shift except a zero-byte shift of a completely full
buffer. -/
theorem shift_spec (s : RBState) (q : List Item) (n : Nat)
    (hsz : s.left ≤ s.size) :
    (s.left < n → shift s q n = (s, q, false, false)) ∧
    (n ≤ s.left →
      (shift s q n).2.2.1 = true ∧
      ((shift s q n).2.2.2 = true ↔ s.left - n < s.fillThreshold) ∧
      (s.fillThreshold = 0 → (shift s q n).2.2.2 = false) ∧
      (s.fillThreshold = s.size →
        ((shift s q n).2.2.2 = true ↔ ¬(n = 0 ∧ s.left = s.size))) ∧
      shift s q n =
        (if s.left - n < s.fillThreshold then
          ((fill { s with ptrOff := s.ptrOff + n, left := s.left - n } q).1,
           (fill { s with ptrOff := s.ptrOff + n, left := s.left - n } q).2.1,
           true, true)
         else ({ s with ptrOff := s.ptrOff + n, left := s.left - n },
           q, true, false))) := by
  constructor
  · intro h
    unfold shift
    rw [if_pos h]
  · intro hn
    have hnot : ¬ s.left < n := by omega
    have hchar : shift s q n =
        (if s.left - n < s.fillThreshold then
          ((fill { s with ptrOff := s.ptrOff + n, left := s.left - n } q).1,
           (fill { s with ptrOff := s.ptrOff + n, left := s.left - n } q).2.1,
           true, true)
         else ({ s with ptrOff := s.ptrOff + n, left := s.left - n },
           q, true, false)) := by
      unfold shift
      rw [if_neg hnot]
    refine ⟨?_, ?_, ?_, ?_, hchar⟩
    · rw [hchar]
      by_cases hth : s.left - n < s.fillThreshold
      · rw [if_pos hth]
      · rw [if_neg hth]
    · rw [hchar]
      by_cases hth : s.left - n < s.fillThreshold
      · rw [if_pos hth]
        simp only [true_iff]
        exact hth
      · rw [if_neg hth]
        simp only [Bool.false_eq_true, false_iff]
        exact hth
    · intro h0
      rw [hchar, if_neg (by omega)]
    · intro hts
      rw [hchar]
      by_cases hth : s.left - n < s.fillThreshold
      · rw [if_pos hth]
        simp only [true_iff]
        omega
      · rw [if_neg hth]
        simp only [Bool.false_eq_true, false_iff, not_not]
        omega

/-- C2 witness: size 2, threshold 2, `left = 2`, `shift(1)`: the shift
succeeds and auto-fill is invoked (resulting `left = 1 <` threshold). -/
theorem shift_spec_witness :
    ((2 : Nat) < 1 →
      shift { data := fun _ => 0, size := 2, ptrOff := 0, left := 2,
              fillThreshold := 2, pos := 2, isEof := false, fp := 0 } [] 1 =
        ({ data := fun _ => 0, size := 2, ptrOff := 0, left := 2,
           fillThreshold := 2, pos := 2, isEof := false, fp := 0 }, [],
         false, false)) ∧
    ((1 : Nat) ≤ 2 →
      (shift { data := fun _ => 0, size := 2, ptrOff := 0, left := 2,
               fillThreshold := 2, pos := 2, isEof := false, fp := 0 }
        [] 1).2.2.1 = true ∧
      ((shift { data := fun _ => 0, size := 2, ptrOff := 0, left := 2,
                fillThreshold := 2, pos := 2, isEof := false, fp := 0 }
        [] 1).2.2.2 = true ↔ 2 - 1 < 2) ∧
      ((2 : Nat) = 0 →
        (shift { data := fun _ => 0, size := 2, ptrOff := 0, left := 2,
                 fillThreshold := 2, pos := 2, isEof := false, fp := 0 }
          [] 1).2.2.2 = false) ∧
      ((2 : Nat) = 2 →
        ((shift { data := fun _ => 0, size := 2, ptrOff := 0, left := 2,
                  fillThreshold := 2, pos := 2, isEof := false, fp := 0 }
          [] 1).2.2.2 = true ↔ ¬((1 : Nat) = 0 ∧ (2 : Nat) = 2))) ∧
      shift { data := fun _ => 0, size := 2, ptrOff := 0, left := 2,
              fillThreshold := 2, pos := 2, isEof := false, fp := 0 } [] 1 =
        (if (2 : Nat) - 1 < 2 then
          ((fill { data := fun _ => 0, size := 2, ptrOff := 0 + 1, left := 2 - 1,
                   fillThreshold := 2, pos := 2, isEof := false, fp := 0 } []).1,
           (fill { data := fun _ => 0, size := 2, ptrOff := 0 + 1, left := 2 - 1,
                   fillThreshold := 2, pos := 2, isEof := false, fp := 0 } []).2.1,
           true, true)
         else ({ data := fun _ => 0, size := 2, ptrOff := 0 + 1, left := 2 - 1,
                 fillThreshold := 2, pos := 2, isEof := false, fp := 0 },
           [], true, false))) :=
  shift_spec
    { data := fun _ => 0, size := 2, ptrOff := 0, left := 2,
      fillThreshold := 2, pos := 2, isEof := false, fp := 0 } [] 1 (by decide)

/-- C2 counterexample to the claim as stated: with the threshold equal
to the buffer size (both `1`) and a completely full buffer
(`left = size = 1`), the zero-byte shift `shift(0)` succeeds but does
NOT invoke `fill()` — so a threshold equal to the buffer size does not
trigger a fill on every shift. -/
theorem shift_threshold_size_cex :
    ({ data := fun _ => 0, size := 1, ptrOff := 0, left := 1,
       fillThreshold := 1, pos := 1, isEof := false, fp := 0 } :
      RBState).fillThreshold =
      ({ data := fun _ => 0, size := 1, ptrOff := 0, left := 1,
         fillThreshold := 1, pos := 1, isEof := false, fp := 0 } :
        RBState).size ∧
    (shift { data := fun _ => 0, size := 1, ptrOff := 0, left := 1,
             fillThreshold := 1, pos := 1, isEof := false, fp := 0 }
      [] 0).2.2.1 = true ∧
    (shift { data := fun _ => 0, size := 1, ptrOff := 0, left := 1,
             fillThreshold := 1, pos := 1, isEof := false, fp := 0 }
      [] 0).2.2.2 = false :=
  ⟨rfl, rfl, rfl⟩

/-- `fill()` never changes the buffer capacity. -/
lemma fill_size (s : RBState) (q : List Item) :
    (fill s q).1.size = s.size := by
  rcases s with ⟨d, sz, po, l, th, pos, e, fp⟩
  cases e <;> cases q <;> rfl

/-- `shift()` never changes the buffer capacity. -/
lemma shift_size (s : RBState) (q : List Item) (n : Nat) :
    (shift s q n).1.size = s.size := by
  unfold shift
  dsimp only
  split_ifs with h1 h2
  · rfl
  · exact fill_size { s with ptrOff := s.ptrOff + n, left := s.left - n } q
  · rfl

/-- One fitting `fill()` keeps `left` within the capacity. -/
lemma fill_left_le (s : RBState) (q : List Item)
    (hfit : fillFits s q = true) (hinv : s.left ≤ s.size) :
    (fill s q).1.left ≤ s.size := by
  rcases s with ⟨d, sz, po, l, th, pos, e, fp⟩
  dsimp only at hinv ⊢
  cases e with
  | false =>
    cases q with
    | nil => exact hinv
    | cons item rest =>
      have h := of_decide_eq_true hfit
      exact h
  | true => exact hinv

/-- One fitting `shift()` keeps `left` within the capacity. -/
lemma shift_left_le (s : RBState) (q : List Item) (n : Nat)
    (hfit : (if s.left < n then true
             else if s.left - n < s.fillThreshold then
               fillFits { s with ptrOff := s.ptrOff + n, left := s.left - n } q
             else true) = true)
    (hinv : s.left ≤ s.size) :
    (shift s q n).1.left ≤ s.size := by
  unfold shift
  dsimp only
  split_ifs with h1 h2
  · exact hinv
  · rw [if_neg h1, if_pos h2] at hfit
    have h := fill_left_le { s with ptrOff := s.ptrOff + n, left := s.left - n }
      q hfit (by dsimp only; omega)
    exact h
  · dsimp only
    omega

/-- Auxiliary induction for C3: the invariant `left ≤ size` is
preserved by any run whose fills all fit. -/
lemma runOps_left_le (ops : List Op) : ∀ (s : RBState) (q : List Item),
    s.left ≤ s.size → fitsAll s q ops = true →
    (runOps s q ops).1.left ≤ (runOps s q ops).1.size := by
  induction ops with
  | nil =>
    intro s q hinv _
    exact hinv
  | cons op ops ih =>
    intro s q hinv hfits
    cases op with
    | fillOp =>
      simp only [fitsAll, Bool.and_eq_true] at hfits
      simp only [runOps]
      refine ih (fill s q).1 (fill s q).2.1 ?_ hfits.2
      rw [fill_size]
      exact fill_left_le s q hfits.1 hinv
    | shiftOp n =>
      simp only [fitsAll, Bool.and_eq_true] at hfits
      simp only [runOps]
      refine ih (shift s q n).1 (shift s q n).2.1 ?_ hfits.2
      rw [shift_size]
      exact shift_left_le s q n hfits.1 hinv

/-- C3 (amended).  For every sequence of `shift`/`fill` calls starting
from a freshly bound (empty) buffer, and every stream of dequeued
items, `0 ≤ left ≤ size` holds after every call, provided each chunk a
fill dequeues fits into the free space `size - left` at that moment.
(Without that proviso the invariant fails — see the counterexample.) -/
theorem left_invariant_spec (sz th fp : Nat) (q : List Item) (ops : List Op)
    (hfits : fitsAll (freshBound sz th fp) q ops = true) :
    0 ≤ (runOps (freshBound sz th fp) q ops).1.left ∧
    (runOps (freshBound sz th fp) q ops).1.left ≤
      (runOps (freshBound sz th fp) q ops).1.size :=
  ⟨Nat.zero_le _, runOps_left_le ops (freshBound sz th fp) q (Nat.zero_le _) hfits⟩

/-- C3 witness: size 2, one fill of a 1-byte chunk fits and the
invariant holds after the run. -/
theorem left_invariant_spec_witness :
    0 ≤ (runOps (freshBound 2 0 1)
      [{ data := fun _ => 0, length := 1, pos := 1, reachedEof := false }]
      [Op.fillOp]).1.left ∧
    (runOps (freshBound 2 0 1)
      [{ data := fun _ => 0, length := 1, pos := 1, reachedEof := false }]
      [Op.fillOp]).1.left ≤
      (runOps (freshBound 2 0 1)
        [{ data := fun _ => 0, length := 1, pos := 1, reachedEof := false }]
        [Op.fillOp]).1.size :=
  left_invariant_spec 2 0 1
    [{ data := fun _ => 0, length := 1, pos := 1, reachedEof := false }]
    [Op.fillOp] (by decide)

/-- C3 counterexample to the claim as stated: buffer of size 1, freshly
bound, two consecutive manual `fill()` calls each dequeuing a 1-byte
chunk (the producer keeps the queue topped up, so this sequence is
reachable): afterwards `left = 2` exceeds `size = 1` — the code never
checks that a chunk fits, and the `memcpy` in `fill()` overruns the
buffer. -/
theorem left_invariant_cex :
    (runOps (freshBound 1 0 5)
      [{ data := fun _ => 0, length := 1, pos := 1, reachedEof := false },
       { data := fun _ => 0, length := 1, pos := 2, reachedEof := false }]
      [Op.fillOp, Op.fillOp]).1.left = 2 ∧
    (runOps (freshBound 1 0 5)
      [{ data := fun _ => 0, length := 1, pos := 1, reachedEof := false },
       { data := fun _ => 0, length := 1, pos := 2, reachedEof := false }]
      [Op.fillOp, Op.fillOp]).1.size = 1 :=
  ⟨rfl, rfl⟩

end ReadBuffer


namespace FillLoop

open ReadBuffer

/-- One step never pushes the queue level above the pool capacity. -/
lemma step_level_le (N C : Nat) {a b : FLState} (h : Step N C a b)
    (ha : a.level ≤ N) : b.level ≤ N := by
  cases h <;> dsimp only <;> omega

/-- C7.  Backpressure: a step that publishes an item can only fire when
the queue holds fewer than `N` items, and consequently from any state
with at most `N` in-flight items every reachable state still has at
most `N` — the producer never gets an `(N+1)`-th item onto the
channel before a consumer dequeue. -/
theorem backpressure_spec (N C : Nat) :
    (∀ s s' : FLState, Step N C s s' →
      s'.published ≠ s.published → s.level < N) ∧
    (∀ s s' : FLState, Steps N C s s' → s.level ≤ N → s'.level ≤ N) := by
  constructor
  · intro s s' hst hne
    cases hst with
    | readOk br chunk eofNow h1 h2 h3 h4 h5 => exact h3
    | readBad h1 h2 h3 => exact absurd rfl hne
    | disconnect h1 h2 => exact absurd rfl hne
    | connectIgnored h1 h2 => exact absurd rfl hne
    | idleConnect ftell feof h1 => exact absurd rfl hne
    | idleDisconnect h1 => exact absurd rfl hne
    | eofExit h1 h2 => exact absurd rfl hne
    | consume h1 => exact absurd rfl hne
  · intro s s' hsteps
    induction hsteps with
    | refl => exact id
    | tail hst step ih => exact fun ha => step_level_le N C step (ih ha)

/-- C7 witness: the level bound applied to the empty reflexive run from
the initial (idle, empty-queue) state with `N = 3`. -/
theorem backpressure_spec_witness :
    ({ phase := Phase.idle, level := 0, pos := 0, id := 0, eof := false,
       published := [], serviced := 0 } : FLState).level ≤ 3 :=
  (backpressure_spec 3 16).2
    { phase := Phase.idle, level := 0, pos := 0, id := 0, eof := false,
      published := [], serviced := 0 }
    { phase := Phase.idle, level := 0, pos := 0, id := 0, eof := false,
      published := [], serviced := 0 }
    Relation.ReflTransGen.refl (by decide)

/-- C6.  A failing or zero-byte `f_read` makes the fill loop `return`:
the bad-read transition exists from any reading position and publishes
nothing and services nothing; every step that changes the published
history appends exactly one whole item of positive length (never a
partial/garbage one); and from a fatal state no sequence of steps ever
publishes an item or services a bind request again. -/
theorem fatal_read_spec (N C : Nat) :
    (∀ s : FLState, s.phase = Phase.streaming → s.eof = false →
      s.level < N →
      Step N C s { s with phase := Phase.fatal } ∧
      ({ s with phase := Phase.fatal } : FLState).published = s.published ∧
      ({ s with phase := Phase.fatal } : FLState).serviced = s.serviced) ∧
    (∀ s s' : FLState, Step N C s s' → s'.published ≠ s.published →
      ∃ item : Item, s'.published = s.published ++ [item] ∧
        0 < item.length ∧ item.length ≤ C ∧
        s.phase = Phase.streaming ∧ s.eof = false ∧ s.level < N) ∧
    (∀ s s' : FLState, Steps N C s s' → s.phase = Phase.fatal →
      s'.phase = Phase.fatal ∧ s'.published = s.published ∧
      s'.serviced = s.serviced) := by
  refine ⟨?_, ?_, ?_⟩
  · intro s h1 h2 h3
    exact ⟨Step.readBad s h1 h2 h3, rfl, rfl⟩
  · intro s s' hst hne
    cases hst with
    | readOk br chunk eofNow h1 h2 h3 h4 h5 =>
      exact ⟨_, rfl, h4, h5, h1, h2, h3⟩
    | readBad h1 h2 h3 => exact absurd rfl hne
    | disconnect h1 h2 => exact absurd rfl hne
    | connectIgnored h1 h2 => exact absurd rfl hne
    | idleConnect ftell feof h1 => exact absurd rfl hne
    | idleDisconnect h1 => exact absurd rfl hne
    | eofExit h1 h2 => exact absurd rfl hne
    | consume h1 => exact absurd rfl hne
  · intro s s' hsteps
    induction hsteps with
    | refl => exact fun hf => ⟨hf, rfl, rfl⟩
    | tail hst step ih =>
      intro hf
      obtain ⟨hf', hp, hs⟩ := ih hf
      cases step with
      | readOk br chunk eofNow h1 h2 h3 h4 h5 =>
        rw [hf'] at h1
        exact Phase.noConfusion h1
      | readBad h1 h2 h3 =>
        rw [hf'] at h1
        exact Phase.noConfusion h1
      | disconnect h1 h2 =>
        rw [hf'] at h1
        exact Phase.noConfusion h1
      | connectIgnored h1 h2 =>
        rw [hf'] at h1
        exact Phase.noConfusion h1
      | idleConnect ftell feof h1 =>
        rw [hf'] at h1
        exact Phase.noConfusion h1
      | idleDisconnect h1 =>
        rw [hf'] at h1
        exact Phase.noConfusion h1
      | eofExit h1 h2 =>
        rw [hf'] at h1
        exact Phase.noConfusion h1
      | consume h1 =>
        exact ⟨hf', hp, hs⟩

/-- C6 witness: the bad-read step from a concrete streaming state, and
fatal absorption over the empty run from a concrete fatal state. -/
theorem fatal_read_spec_witness :
    (Step 2 4
      { phase := Phase.streaming, level := 0, pos := 0, id := 0,
        eof := false, published := [], serviced := 0 }
      { phase := Phase.fatal, level := 0, pos := 0, id := 0,
        eof := false, published := [], serviced := 0 } ∧
     ({ phase := Phase.fatal, level := 0, pos := 0, id := 0, eof := false,
        published := [], serviced := 0 } : FLState).published = [] ∧
     ({ phase := Phase.fatal, level := 0, pos := 0, id := 0, eof := false,
        published := [], serviced := 0 } : FLState).serviced = 0) ∧
    (({ phase := Phase.fatal, level := 1, pos := 5, id := 0, eof := false,
        published := [], serviced := 2 } : FLState).phase = Phase.fatal ∧
     ({ phase := Phase.fatal, level := 1, pos := 5, id := 0, eof := false,
        published := [], serviced := 2 } : FLState).published = [] ∧
     ({ phase := Phase.fatal, level := 1, pos := 5, id := 0, eof := false,
        published := [], serviced := 2 } : FLState).serviced = 2) :=
  ⟨(fatal_read_spec 2 4).1
      { phase := Phase.streaming, level := 0, pos := 0, id := 0,
        eof := false, published := [], serviced := 0 } rfl rfl (by decide),
   (fatal_read_spec 2 4).2.2
      { phase := Phase.fatal, level := 1, pos := 5, id := 0, eof := false,
        published := [], serviced := 2 }
      { phase := Phase.fatal, level := 1, pos := 5, id := 0, eof := false,
        published := [], serviced := 2 }
      Relation.ReflTransGen.refl rfl⟩

/-- C8.  A disconnect request (`reqBind(fp, false)`) arriving while the
loop is idle: the request handler acknowledges (response = request),
performs no `bind` and no change to the consumer object or the loop
locals, and does not enter streaming; the consumer side performs no
fill; and as a loop step, servicing it only bumps the acknowledgment
count — phase stays `idle`, queue level and published history are
untouched. -/
theorem idle_disconnect_spec (N C : Nat) (rb : RBState) (pos : Nat)
    (reachedEof : Bool) (fp ftell : Nat) (feof : Bool) (q : List Item) :
    handleIdleReq rb pos reachedEof fp false ftell feof =
      (rb, (pos, reachedEof), (fp, false), false) ∧
    reqBindConsumerTail rb q false = (rb, q) ∧
    (∀ s : FLState, s.phase = Phase.idle →
      Step N C s { s with serviced := s.serviced + 1 } ∧
      ({ s with serviced := s.serviced + 1 } : FLState).phase = Phase.idle ∧
      ({ s with serviced := s.serviced + 1 } : FLState).level = s.level ∧
      ({ s with serviced := s.serviced + 1 } : FLState).published =
        s.published) :=
  ⟨rfl, rfl, fun s h =>
    ⟨Step.idleDisconnect s h, by rw [h], rfl, rfl⟩⟩

/-- C8 witness: the no-op disconnect at concrete inputs, including the
loop step from a concrete idle state. -/
theorem idle_disconnect_spec_witness :
    (handleIdleReq (freshBound 4 0 1) 7 true 2 false 9 false =
      (freshBound 4 0 1, (7, true), (2, false), false)) ∧
    (reqBindConsumerTail (freshBound 4 0 1) [] false =
      (freshBound 4 0 1, [])) ∧
    Step 1 1
      { phase := Phase.idle, level := 0, pos := 5, id := 0, eof := false,
        published := [], serviced := 3 }
      { phase := Phase.idle, level := 0, pos := 5, id := 0, eof := false,
        published := [], serviced := 4 } :=
  ⟨(idle_disconnect_spec 1 1 (freshBound 4 0 1) 7 true 2 9 false []).1,
   (idle_disconnect_spec 1 1 (freshBound 4 0 1) 7 true 2 9 false []).2.1,
   ((idle_disconnect_spec 1 1 (freshBound 4 0 1) 7 true 2 9 false []).2.2
      { phase := Phase.idle, level := 0, pos := 5, id := 0, eof := false,
        published := [], serviced := 3 } rfl).1⟩

end FillLoop
